import Mathlib

/-!
Verification of the agentic RAG workflow in `src/workflows/agentic_workflow.py`
(repository clare-mvp-public).

The development shallowly embeds the pure decision logic of the workflow:
reciprocal-rank fusion, the parallel relevance grader's verdict, the
post-grading routing decision, the query router's label handling, the query
rewriter's state update, and the LangGraph state machine built at the bottom
of the file.  Language-model and retrieval calls are modelled as oracle
inputs (their verdict strings / returned lists), since the surrounding
control flow is what the specification speaks about.
-/

namespace Clare

namespace Py

/-- Python `str.lower()`: lower-case every character. -/
def lower (s : String) : String := ⟨s.data.map Char.toLower⟩

/-- Python `str.strip()`: drop whitespace from both ends. -/
def strip (s : String) : String :=
  ⟨(((s.data.dropWhile Char.isWhitespace).reverse).dropWhile Char.isWhitespace).reverse⟩

/-- Python `s.startswith(kw)`. -/
def startswith (s kw : String) : Bool := kw.data.isPrefixOf s.data

end Py

/-- A scalar metadata value of a document (string or numeric), enough to
represent the `rrf_score` entry the fusion engine attaches. -/
inductive MVal where
  | str : String → MVal
  | num : ℚ → MVal
deriving DecidableEq, Repr

/-- `langchain_core.documents.Document`: page content plus a metadata mapping,
modelled as an insertion-ordered association list (Python `dict`).
Structural equality of a `Document` corresponds to equality of the exact
serialized content+metadata (`dumps` in the source is injective). -/
structure Document where
  page_content : String
  metadata : List (String × MVal)
deriving DecidableEq, Repr

/-- Python `d[key] = v` on an insertion-ordered dict: overwrite in place if the
key is present, else append at the end. -/
def setKey (m : List (String × MVal)) (key : String) (v : MVal) : List (String × MVal) :=
  match m with
  | [] => [(key, v)]
  | (k, x) :: rest => if k = key then (k, v) :: rest else (k, x) :: setKey rest key v

/-- `doc.metadata["rrf_score"] = score` from `reciprocal_rank_fusion`. -/
def setMeta (d : Document) (key : String) (v : MVal) : Document :=
  { d with metadata := setKey d.metadata key v }

section RRF

variable {α : Type} [DecidableEq α]

/-- `fused_scores[doc_str] += v`, initialising the entry to `0` first when the
key is absent (so absent ↦ appended with value `v`); Python dicts keep
insertion order, modelled by the association list. -/
def bump : List (α × ℚ) → α → ℚ → List (α × ℚ)
  | [], d, v => [(d, v)]
  | (e, s) :: rest, d, v =>
      if e = d then (e, s + v) :: rest else (e, s) :: bump rest d v

/-- The `fused_scores` dictionary after the two nested loops of
`reciprocal_rank_fusion`: for list index `i` (0-based), the score added is
`1 / (rank + k)` with `rank = i + 1`. -/
def fusedScores (results : List (List α)) (k : ℚ) : List (α × ℚ) :=
  results.foldl
    (fun acc docs =>
      docs.enum.foldl (fun acc2 p => bump acc2 p.2 (1 / ((p.1 : ℚ) + 1 + k))) acc)
    []

/-- Stable insertion (descending by score): keep strictly larger scores in
front, insert before the first entry whose score is not larger.  This is the
behaviour of Python's stable `sorted(..., key=score, reverse=True)`. -/
def insertDesc (p : α × ℚ) : List (α × ℚ) → List (α × ℚ)
  | [] => [p]
  | q :: rest => if p.2 < q.2 then q :: insertDesc p rest else p :: q :: rest

/-- Stable sort, descending by accumulated score (ties keep first-encounter
order, as Python's `sorted` is stable). -/
def sortDesc : List (α × ℚ) → List (α × ℚ)
  | [] => []
  | p :: rest => insertDesc p (sortDesc rest)

/-- `reranked_results`: the fused score table sorted descending by score. -/
def rrfRank (results : List (List α)) (k : ℚ) : List (α × ℚ) :=
  sortDesc (fusedScores results k)

end RRF

/-- `reciprocal_rank_fusion(results, k=60)` from the source: fuse the ranked
lists, sort descending by accumulated score, and return the documents with the
score recorded under the `rrf_score` metadata key. -/
def reciprocal_rank_fusion (results : List (List Document)) (k : ℚ := 60) : List Document :=
  (rrfRank results k).map (fun p => setMeta p.1 "rrf_score" (.num p.2))

/-! ### Specification-side notions for rank fusion -/

section RRFSpec

variable {α : Type} [DecidableEq α]

/-- The accumulated reciprocal-rank score of a document `d`: the sum, over
every input list and every 1-based rank `r` at which `d` occurs there, of
`1 / (r + k)`. -/
def rrfScore (results : List (List α)) (k : ℚ) (d : α) : ℚ :=
  (results.map
    (fun docs =>
      (docs.enum.map (fun p => if p.2 = d then 1 / ((p.1 : ℚ) + 1 + k) else 0)).sum)).sum

/-- The distinct documents of the input in first-encounter order. -/
def encounterList (results : List (List α)) : List α :=
  results.flatten.foldl (fun ks d => if d ∈ ks then ks else ks ++ [d]) []

/-- The intended order of the fused output: strictly larger score first, ties
broken by first-encounter order. -/
def rrfRel (results : List (List α)) (p q : α × ℚ) : Prop :=
  q.2 < p.2 ∨ (p.2 = q.2 ∧
    (encounterList results).indexOf p.1 < (encounterList results).indexOf q.1)

end RRFSpec

section RRFProofDefs

variable {α : Type} [DecidableEq α]

/-- Total value accumulated for key `d` in a score table (sum over all
entries with that key). -/
def keySum (l : List (α × ℚ)) (d : α) : ℚ :=
  ((l.filter (fun p => p.1 = d)).map Prod.snd).sum

/-- Folding a list of keyed contributions into a score table. -/
def bumpFold (acc : List (α × ℚ)) (l : List (α × ℚ)) : List (α × ℚ) :=
  l.foldl (fun a p => bump a p.1 p.2) acc

/-- Folding keys into a first-encounter list. -/
def insFold (acc : List α) (l : List α) : List α :=
  l.foldl (fun ks d => if d ∈ ks then ks else ks ++ [d]) acc

/-- The flattened contribution stream of the two nested fusion loops: one
`(document, 1 / (rank + k))` pair per occurrence. -/
def contribs (results : List (List α)) (k : ℚ) : List (α × ℚ) :=
  (results.map (fun docs => docs.enum.map (fun p => (p.2, 1 / ((p.1 : ℚ) + 1 + k))))).flatten

end RRFProofDefs

/-! ### Multi-query retriever (`document_retriever`) -/

/-- Strip the fusion provenance field: the dict comprehension
`{k: v for k, v in metadata.items() if k != 'rrf_score'}`. -/
def stripRrfScore (m : List (String × MVal)) : List (String × MVal) :=
  m.filter (fun p => p.1 ≠ "rrf_score")

/-- The retrieval/fusion part of `document_retriever`: each per-paraphrase
retrieval call either fails (`none`, the `except ... continue` branch) or
returns a ranked list; surviving lists are fused with
`reciprocal_rank_fusion`, the fused ranking is truncated to the top 5, and
each kept document is rebuilt with the `rrf_score` key removed from its
metadata.  (The source's defensive branch for a JSON-string metadata field is
the identity in this model, where metadata is always a mapping.) -/
def document_retriever (outcomes : List (Option (List Document))) : List Document :=
  let per_query_docs := outcomes.filterMap id
  let rag_fusion_mmr_results := reciprocal_rank_fusion per_query_docs
  let top_k_results := rag_fusion_mmr_results.take 5
  top_k_results.map (fun doc =>
    { page_content := doc.page_content, metadata := stripRrfScore doc.metadata })

/-! ### Parallel relevance grader (`grade_documents_parallel`) -/

/-- The pure part of `grade_documents_parallel`: `results` is the list of
`binary_score` strings returned by the per-document grader calls (one per
document, in order).  A document is kept when its score lower-cases to
`"pass"`; the verdict is `"fail"` when there are no documents, or when the
filtered-out fraction `(total - relevant) / total` is at least `0.3`. -/
def grade_documents_parallel (documents : List Document) (results : List String) :
    List Document × String :=
  let filtered_docs :=
    ((documents.zip results).filter (fun p => Py.lower p.2 = "pass")).map Prod.fst
  let total_docs := documents.length
  let relevant_docs := filtered_docs.length
  if 0 < total_docs then
    let filtered_out_percentage : ℚ :=
      ((total_docs : ℚ) - (relevant_docs : ℚ)) / (total_docs : ℚ)
    (filtered_docs, if filtered_out_percentage ≥ 3 / 10 then "fail" else "pass")
  else
    (filtered_docs, "fail")

/-! ### Post-grading routing (`decide_to_generate_or_assess`) -/

def faq_keywords : List String := ["who", "what", "when", "where"]

/-- `any(original_question.lower().strip().startswith(keyword) for keyword in
faq_keywords)`. -/
def startsWithFaqWord (q : String) : Bool :=
  faq_keywords.any (fun kw => Py.startswith (Py.strip (Py.lower q)) kw)

/-- `state.get("original_question") or state.get("question", "")`: Python
truthiness makes an absent or empty `original_question` fall back to the
current question. -/
def effectiveQuestion (original_question : Option String) (question : String) : String :=
  match original_question with
  | some s => if s = "" then question else s
  | none => question

/-- `decide_to_generate_or_assess`, as a function of the graded verdict and
the two question fields of the state. -/
def decide_to_generate_or_assess (checker_result : String)
    (original_question : Option String) (question : String) : String :=
  if checker_result = "pass" then "generate"
  else if startsWithFaqWord (effectiveQuestion original_question question) then
    "Chitter-Chatter"
  else
    "Websearch"

/-! ### Query router (`route_question`) -/

/-- `route_question`, as a function of the `Datasource` label produced by the
classifier: `Websearch` and `Vectorstore` map to themselves, the two known
fallback labels and any other value map to `Chitter-Chatter`. -/
def route_question (parsed_router_output : String) : String :=
  if parsed_router_output = "Websearch" then "Websearch"
  else if parsed_router_output = "Vectorstore" then "Vectorstore"
  else if parsed_router_output = "Simple-FAQ" ∨ parsed_router_output = "Chitter-Chatter" then
    "Chitter-Chatter"
  else
    "Chitter-Chatter"

/-! ### Verification decision (`check_generation_vs_documents_and_question`) -/

/-- The decision string returned by `check_generation_vs_documents_and_question`,
as a function of the two verifier verdicts (`binary_score.lower() == "pass"`)
and the two retry counters read from the state. -/
def check_generation_vs_documents_and_question
    (hallucination_pass usefulness_pass : Bool)
    (hallucination_checker_attempts answer_verifier_attempts : Nat) : String :=
  if hallucination_pass then
    if usefulness_pass then "useful"
    else if answer_verifier_attempts > 1 then "max retries"
    else "not useful"
  else if hallucination_checker_attempts > 1 then "max retries"
  else "not supported"

/-! ### The LangGraph state machine (`workflow`) -/

/-- The nodes of the compiled graph, plus the implicit entry (`routing`, the
conditional entry point) and `END`. -/
inductive Node where
  | routing
  | webSearcher
  | documentRetriever
  | relevanceGrader
  | answerGenerator
  | queryRewriter
  | chitterChatter
  | hallucinationCheckerFailed
  | answerVerifierFailed
  | done
deriving DecidableEq, Repr

/-- The outcome of the fallible model calls a single step may make: the
router's label, the grader's aggregated pass verdict, the two verifier
verdicts, and the rewritten question.  A run is driven by an arbitrary stream
of such choices, so every sequence of pass/fail verdicts is covered. -/
structure Choice where
  routeLabel : String
  checkerPass : Bool
  groundingPass : Bool
  usefulnessPass : Bool
  rewritten : String

/-- The state-machine configuration: the current node plus the `GraphState`
fields the control flow reads (`hallucination_checker_attempts`,
`answer_verifier_attempts`, `question`, `original_question`; the last is
`none` when the key is absent from the state). -/
structure Config where
  node : Node
  hallucination_checker_attempts : Nat
  answer_verifier_attempts : Nat
  question : String
  original_question : Option String
deriving DecidableEq, Repr

/-- One transition of the compiled workflow: execute the node the
configuration sits at (its state update) together with the conditional edge
leaving it, consuming the oracle choice `ch` for any model call involved. -/
def step (c : Config) (ch : Choice) : Config :=
  match c.node with
  | .routing =>
      let r := route_question ch.routeLabel
      if r = "Websearch" then { c with node := .webSearcher }
      else if r = "Vectorstore" then { c with node := .documentRetriever }
      else { c with node := .chitterChatter }
  | .webSearcher => { c with node := .answerGenerator }
  | .documentRetriever => { c with node := .relevanceGrader }
  | .relevanceGrader =>
      let cr := if ch.checkerPass then "pass" else "fail"
      let d := decide_to_generate_or_assess cr c.original_question c.question
      if d = "generate" then { c with node := .answerGenerator }
      else if d = "Websearch" then { c with node := .webSearcher }
      else { c with node := .chitterChatter }
  | .answerGenerator =>
      let d := check_generation_vs_documents_and_question
        ch.groundingPass ch.usefulnessPass
        c.hallucination_checker_attempts c.answer_verifier_attempts
      if d = "useful" then { c with node := .done }
      else if d = "not supported" then { c with node := .hallucinationCheckerFailed }
      else if d = "not useful" then { c with node := .answerVerifierFailed }
      else { c with node := .chitterChatter }
  | .hallucinationCheckerFailed =>
      { c with node := .answerGenerator,
               hallucination_checker_attempts := c.hallucination_checker_attempts + 1 }
  | .answerVerifierFailed =>
      { c with node := .queryRewriter,
               answer_verifier_attempts := c.answer_verifier_attempts + 1 }
  | .queryRewriter =>
      { c with node := .documentRetriever,
               question := ch.rewritten,
               original_question := some (c.original_question.getD c.question) }
  | .chitterChatter => { c with node := .done }
  | .done => c

/-- A fresh turn: entry at the conditional entry point, counters absent
(read as 0), `original_question` absent, `question` as supplied. -/
def init (q0 : String) : Config :=
  { node := .routing,
    hallucination_checker_attempts := 0,
    answer_verifier_attempts := 0,
    question := q0,
    original_question := none }

/-- `run f c n`: the configuration after `n` steps driven by the choice
stream `f`. -/
def run (f : Nat → Choice) (c : Config) : Nat → Config
  | 0 => c
  | n + 1 => step (run f c n) (f n)

/-- How many of the first `n` configurations sit at `AnswerGenerator`
(i.e. how many generation attempts the first `n` steps perform). -/
def agCount (f : Nat → Choice) (c : Config) : Nat → Nat
  | 0 => 0
  | n + 1 => agCount f c n + (if (run f c n).node = .answerGenerator then 1 else 0)

/-- The `question` the query rewriter feeds into its rewrite prompt:
`original_question` when set, else the current question (the local
`question` variable of `query_rewriter`). -/
def rewriterPromptQuestion (c : Config) : String :=
  c.original_question.getD c.question

/-! ## Helper lemmas -/

/-- Some concrete documents used in witnesses and examples. -/
def docA : Document := ⟨"A", []⟩

def docB : Document := ⟨"B", []⟩

def docC : Document := ⟨"C", []⟩

def docM : Document := ⟨"M", [("title", .str "t"), ("rrf_score", .num 1)]⟩

/-- The run invariant: both retry counters stay at most 2, and at a tracker
node the counter about to be incremented is still at most 1. -/
def Inv (c : Config) : Prop :=
  c.hallucination_checker_attempts ≤ 2 ∧ c.answer_verifier_attempts ≤ 2 ∧
  (c.node = .hallucinationCheckerFailed → c.hallucination_checker_attempts ≤ 1) ∧
  (c.node = .answerVerifierFailed → c.answer_verifier_attempts ≤ 1)

/-- Ranking of nodes used by the termination measure. -/
def nodeWeight : Node → Nat
  | .done => 0
  | .chitterChatter => 1
  | .hallucinationCheckerFailed => 1
  | .answerVerifierFailed => 1
  | .answerGenerator => 2
  | .webSearcher => 3
  | .relevanceGrader => 4
  | .documentRetriever => 5
  | .queryRewriter => 6
  | .routing => 7

/-- Termination measure: remaining retry budget (weighted) plus the node
rank.  Strictly decreases on every step away from `END`. -/
def mu (c : Config) : ℤ :=
  10 * (4 - (c.hallucination_checker_attempts : ℤ) - (c.answer_verifier_attempts : ℤ))
    + (nodeWeight c.node : ℤ)

/-- Visit budget for `AnswerGenerator`: each remaining counter unit buys one
revisit; tracker and terminal nodes carry no credit of their own. -/
def agEps : Node → Nat
  | .routing => 1
  | .webSearcher => 1
  | .documentRetriever => 1
  | .relevanceGrader => 1
  | .queryRewriter => 1
  | .answerGenerator => 1
  | .hallucinationCheckerFailed => 0
  | .answerVerifierFailed => 0
  | .chitterChatter => 0
  | .done => 0

/-- Potential bounding the number of future `AnswerGenerator` visits. -/
def phi (c : Config) : Nat :=
  (2 - c.hallucination_checker_attempts) + (2 - c.answer_verifier_attempts) + agEps c.node

/-- The `original_question` invariant: it is `none` before the first rewrite
(and then `question` is still the turn-start question), and `some q0`
afterwards. -/
def OqInv (q0 : String) (c : Config) : Prop :=
  (c.original_question = none ∧ c.question = q0) ∨ c.original_question = some q0

/-- An oracle on which the knowledge-base route is taken, all documents grade
relevant, and the grounding verifier fails at every generation attempt. -/
def groundingAlwaysFails : Nat → Choice :=
  fun _ => { routeLabel := "Vectorstore", checkerPass := true,
             groundingPass := false, usefulnessPass := true, rewritten := "r" }

/-- An oracle on which the knowledge-base route is taken, documents grade
relevant, generations are grounded but never address the question. -/
def usefulnessAlwaysFails : Nat → Choice :=
  fun _ => { routeLabel := "Vectorstore", checkerPass := true,
             groundingPass := true, usefulnessPass := false, rewritten := "rewritten q" }


/-- The kept documents of the relevance grader, independent of the verdict
branch. -/
lemma grade_documents_parallel_fst (docs : List Document) (results : List String) :
    (grade_documents_parallel docs results).1 =
      ((docs.zip results).filter (fun p => Py.lower p.2 = "pass")).map Prod.fst := by
  by_cases h : 0 < docs.length <;> simp [grade_documents_parallel, h]

/-- Projecting the first components of a filtered zip yields a sublist of the
first list. -/
lemma filter_zip_map_fst_sublist {α β : Type} (p : α × β → Bool) :
    ∀ (l : List α) (r : List β), (((l.zip r).filter p).map Prod.fst).Sublist l
  | [], _ => by simp
  | _ :: _, [] => by simp
  | a :: l, b :: r => by
      rw [List.zip_cons_cons, List.filter_cons]
      by_cases h : p (a, b)
      · simpa [h] using (filter_zip_map_fst_sublist p l r).cons₂ a
      · simpa [h] using (filter_zip_map_fst_sublist p l r).cons a

/-- Counting a property of the second component over a zip of equally long
lists counts it over the second list. -/
lemma countP_zip_snd {α β : Type} (q : β → Bool) :
    ∀ (l : List α) (r : List β), l.length = r.length →
      (l.zip r).countP (fun p => q p.2) = r.countP q
  | [], [], _ => rfl
  | a :: l, b :: r, h => by
      rw [List.zip_cons_cons, List.countP_cons, List.countP_cons,
        countP_zip_snd q l r (by simpa using h)]

/-- Splitting a count by a Boolean property and its complement. -/
lemma countP_add_countP_not {α : Type} (p : α → Bool) (l : List α) :
    l.countP p + l.countP (fun a => !p a) = l.length := by
  induction l with
  | nil => rfl
  | cons a l ih =>
    rw [List.countP_cons, List.countP_cons]
    by_cases h : p a <;> simp [h] <;> omega

/-! ### State-machine helper lemmas -/

/-- What a step does at the entry point, in terms of the raw label. -/
lemma step_routing (c : Config) (ch : Choice) (h : c.node = .routing) :
    step c ch = { c with node :=
      if ch.routeLabel = "Websearch" then .webSearcher
      else if ch.routeLabel = "Vectorstore" then .documentRetriever
      else .chitterChatter } := by
  unfold step route_question
  rw [h]
  by_cases h1 : ch.routeLabel = "Websearch" <;>
    by_cases h2 : ch.routeLabel = "Vectorstore" <;>
      by_cases h3 : ch.routeLabel = "Simple-FAQ" ∨ ch.routeLabel = "Chitter-Chatter" <;>
        simp [h1, h2, h3]

/-- What a step does at the relevance grader. -/
lemma step_relevanceGrader (c : Config) (ch : Choice) (h : c.node = .relevanceGrader) :
    step c ch = { c with node :=
      if ch.checkerPass then .answerGenerator
      else if startsWithFaqWord (effectiveQuestion c.original_question c.question) then
        .chitterChatter
      else .webSearcher } := by
  unfold step decide_to_generate_or_assess
  rw [h]
  cases hb : ch.checkerPass <;>
    by_cases h2 : startsWithFaqWord (effectiveQuestion c.original_question c.question) <;>
      simp [h2]

/-- What a step does at the answer generator, in terms of the two verifier
verdicts and the counters. -/
lemma step_answerGenerator (c : Config) (ch : Choice) (h : c.node = .answerGenerator) :
    step c ch = { c with node :=
      if ch.groundingPass then
        if ch.usefulnessPass then .done
        else if c.answer_verifier_attempts > 1 then .chitterChatter
        else .answerVerifierFailed
      else
        if c.hallucination_checker_attempts > 1 then .chitterChatter
        else .hallucinationCheckerFailed } := by
  unfold step check_generation_vs_documents_and_question
  rw [h]
  cases hg : ch.groundingPass <;> cases hu : ch.usefulnessPass <;>
    by_cases h1 : c.hallucination_checker_attempts > 1 <;>
      by_cases h2 : c.answer_verifier_attempts > 1 <;>
        simp [h1, h2]

/-- A step at `END` stays at `END` (the run has terminated). -/
lemma step_done (c : Config) (ch : Choice) (h : c.node = .done) : step c ch = c := by
  unfold step
  rw [h]

lemma inv_init (q0 : String) : Inv (init q0) := by
  refine ⟨by simp [init], by simp [init], ?_, ?_⟩ <;> intro h <;> simp [init] at h

lemma inv_step (c : Config) (ch : Choice) (h : Inv c) : Inv (step c ch) := by
  obtain ⟨h1, h2, h3, h4⟩ := h
  cases hn : c.node
  case routing =>
    rw [step_routing c ch hn]
    split_ifs <;> exact ⟨h1, h2, by intro h; simp_all, by intro h; simp_all⟩
  case webSearcher =>
    unfold step
    rw [hn]
    exact ⟨h1, h2, by intro h; simp_all, by intro h; simp_all⟩
  case documentRetriever =>
    unfold step
    rw [hn]
    exact ⟨h1, h2, by intro h; simp_all, by intro h; simp_all⟩
  case relevanceGrader =>
    rw [step_relevanceGrader c ch hn]
    split_ifs <;> exact ⟨h1, h2, by intro h; simp_all, by intro h; simp_all⟩
  case answerGenerator =>
    rw [step_answerGenerator c ch hn]
    split_ifs with g1 g2 g3 g4 <;>
      refine ⟨h1, h2, ?_, ?_⟩ <;> intro h <;> simp_all <;> omega
  case hallucinationCheckerFailed =>
    unfold step
    rw [hn]
    have := h3 hn
    exact ⟨by simpa using Nat.succ_le_succ this, h2, by intro h; simp_all, by intro h; simp_all⟩
  case answerVerifierFailed =>
    unfold step
    rw [hn]
    have := h4 hn
    exact ⟨h1, by simpa using Nat.succ_le_succ this, by intro h; simp_all, by intro h; simp_all⟩
  case queryRewriter =>
    unfold step
    rw [hn]
    exact ⟨h1, h2, by intro h; simp_all, by intro h; simp_all⟩
  case chitterChatter =>
    unfold step
    rw [hn]
    exact ⟨h1, h2, by intro h; simp_all, by intro h; simp_all⟩
  case done =>
    rw [step_done c ch hn]
    exact ⟨h1, h2, h3, h4⟩

lemma mu_nonneg (c : Config) (h : Inv c) : 0 ≤ mu c := by
  obtain ⟨h1, h2, _, _⟩ := h
  unfold mu
  have : (0 : ℤ) ≤ (nodeWeight c.node : ℤ) := Int.ofNat_nonneg _
  omega

lemma mu_step (c : Config) (ch : Choice) (h : Inv c) (hn : ¬c.node = .done) :
    mu (step c ch) < mu c := by
  obtain ⟨h1, h2, h3, h4⟩ := h
  cases hd : c.node
  case routing =>
    rw [step_routing c ch hd]
    unfold mu
    split_ifs <;> simp [nodeWeight, hd] <;> omega
  case webSearcher =>
    unfold step
    rw [hd]
    unfold mu
    simp [nodeWeight, hd]
  case documentRetriever =>
    unfold step
    rw [hd]
    unfold mu
    simp [nodeWeight, hd]
  case relevanceGrader =>
    rw [step_relevanceGrader c ch hd]
    unfold mu
    split_ifs <;> simp [nodeWeight, hd] <;> omega
  case answerGenerator =>
    rw [step_answerGenerator c ch hd]
    unfold mu
    split_ifs <;> simp [nodeWeight, hd] <;> omega
  case hallucinationCheckerFailed =>
    unfold step
    rw [hd]
    have := h3 hd
    unfold mu
    simp only [nodeWeight, hd]
    push_cast
    omega
  case answerVerifierFailed =>
    unfold step
    rw [hd]
    have := h4 hd
    unfold mu
    simp only [nodeWeight, hd]
    push_cast
    omega
  case queryRewriter =>
    unfold step
    rw [hd]
    unfold mu
    simp [nodeWeight, hd]
  case chitterChatter =>
    unfold step
    rw [hd]
    unfold mu
    simp [nodeWeight, hd]
  case done => exact absurd hd hn

lemma inv_run (f : Nat → Choice) (c : Config) (h : Inv c) :
    ∀ n, Inv (run f c n)
  | 0 => h
  | n + 1 => inv_step _ (f n) (inv_run f c h n)

lemma run_done_absorb (f : Nat → Choice) (c : Config) (n : Nat)
    (h : (run f c n).node = .done) : ∀ m, (run f c (n + m)).node = .done
  | 0 => h
  | m + 1 => by
      have ih := run_done_absorb f c n h m
      show (step (run f c (n + m)) (f (n + m))).node = .done
      rw [step_done _ _ ih]
      exact ih

lemma mu_run (f : Nat → Choice) (c : Config) (h : Inv c) :
    ∀ n, ¬(run f c n).node = .done → mu (run f c n) ≤ mu c - n
  | 0, _ => by simp [run]
  | n + 1, hnd => by
      have hprev : ¬(run f c n).node = .done := by
        intro hdone
        apply hnd
        have := run_done_absorb f c n hdone 1
        simpa using this
      have h1 := mu_run f c h n hprev
      have h2 := mu_step (run f c n) (f n) (inv_run f c h n) hprev
      have : mu (run f c (n + 1)) < mu c - n := lt_of_lt_of_le h2 h1
      push_cast at this ⊢
      omega

lemma mu_init (q0 : String) : mu (init q0) = 47 := by
  simp [mu, init, nodeWeight]

lemma run_init_done (f : Nat → Choice) (q0 : String) :
    (run f (init q0) 48).node = .done := by
  by_contra h
  have h1 := mu_run f (init q0) (inv_init q0) 48 h
  have h2 := mu_nonneg _ (inv_run f (init q0) (inv_init q0) 48)
  rw [mu_init] at h1
  omega

lemma phi_step (c : Config) (ch : Choice) (h : Inv c) :
    phi (step c ch) + (if c.node = .answerGenerator then 1 else 0) ≤ phi c := by
  obtain ⟨h1, h2, h3, h4⟩ := h
  cases hd : c.node
  case routing =>
    rw [step_routing c ch hd]
    split_ifs <;> simp_all [phi, agEps] <;> omega
  case webSearcher =>
    unfold step
    rw [hd]
    simp_all [phi, agEps]
  case documentRetriever =>
    unfold step
    rw [hd]
    simp_all [phi, agEps]
  case relevanceGrader =>
    rw [step_relevanceGrader c ch hd]
    split_ifs <;> simp_all [phi, agEps] <;> omega
  case answerGenerator =>
    rw [step_answerGenerator c ch hd]
    split_ifs <;> simp_all [phi, agEps] <;> omega
  case hallucinationCheckerFailed =>
    unfold step
    rw [hd]
    have := h3 hd
    simp_all [phi, agEps]
    omega
  case answerVerifierFailed =>
    unfold step
    rw [hd]
    have := h4 hd
    simp_all [phi, agEps]
    omega
  case queryRewriter =>
    unfold step
    rw [hd]
    simp_all [phi, agEps]
  case chitterChatter =>
    unfold step
    rw [hd]
    simp_all [phi, agEps]
  case done =>
    rw [step_done c ch hd]
    simp_all [phi, agEps]

lemma agCount_add_phi_le (f : Nat → Choice) (c : Config) (h : Inv c) :
    ∀ n, agCount f c n + phi (run f c n) ≤ phi c
  | 0 => by simp [agCount, run]
  | n + 1 => by
      have h1 := agCount_add_phi_le f c h n
      have h2 := phi_step (run f c n) (f n) (inv_run f c h n)
      show agCount f c n + (if (run f c n).node = .answerGenerator then 1 else 0)
          + phi (run f c (n + 1)) ≤ phi c
      have h3 : run f c (n + 1) = step (run f c n) (f n) := rfl
      rw [h3]
      omega

lemma oqinv_step (q0 : String) (c : Config) (ch : Choice) (h : OqInv q0 c) :
    OqInv q0 (step c ch) := by
  cases hd : c.node
  case routing =>
    rw [step_routing c ch hd]
    split_ifs <;> exact h
  case relevanceGrader =>
    rw [step_relevanceGrader c ch hd]
    split_ifs <;> exact h
  case answerGenerator =>
    rw [step_answerGenerator c ch hd]
    split_ifs <;> exact h
  case queryRewriter =>
    unfold step
    rw [hd]
    rcases h with ⟨hnone, hq⟩ | hsome
    · right
      simp [hnone, hq]
    · right
      simp [hsome]
  all_goals
    unfold step
    rw [hd]
    first
      | exact h
      | (rcases h with ⟨hnone, hq⟩ | hsome
         · exact Or.inl ⟨hnone, hq⟩
         · exact Or.inr hsome)

lemma oqinv_run (f : Nat → Choice) (q0 : String) :
    ∀ n, OqInv q0 (run f (init q0) n)
  | 0 => Or.inl ⟨rfl, rfl⟩
  | n + 1 => oqinv_step q0 _ (f n) (oqinv_run f q0 n)

/-- What a step does at the query rewriter: set `question` to the rewritten
text and `original_question` to its previous value, or to the current
question when it was absent. -/
lemma step_queryRewriter (c : Config) (ch : Choice) (h : c.node = .queryRewriter) :
    step c ch = { c with
        node := .documentRetriever
        question := ch.rewritten
        original_question := some (c.original_question.getD c.question) } := by
  unfold step
  rw [h]

/-- Every node other than the query rewriter leaves both question fields
unchanged. -/
lemma step_preserves_questions (c : Config) (ch : Choice) (h : ¬c.node = .queryRewriter) :
    (step c ch).original_question = c.original_question ∧
      (step c ch).question = c.question := by
  cases hd : c.node
  case queryRewriter => exact absurd hd h
  case routing =>
    rw [step_routing c ch hd]
    split_ifs <;> exact ⟨rfl, rfl⟩
  case relevanceGrader =>
    rw [step_relevanceGrader c ch hd]
    split_ifs <;> exact ⟨rfl, rfl⟩
  case answerGenerator =>
    rw [step_answerGenerator c ch hd]
    split_ifs <;> exact ⟨rfl, rfl⟩
  all_goals
    unfold step
    rw [hd]
    exact ⟨rfl, rfl⟩

/-! ### Rank-fusion helper lemmas -/

section RRFLemmas

variable {α : Type} [DecidableEq α]

lemma bump_map_fst : ∀ (acc : List (α × ℚ)) (d : α) (v : ℚ),
    (bump acc d v).map Prod.fst =
      if d ∈ acc.map Prod.fst then acc.map Prod.fst else acc.map Prod.fst ++ [d]
  | [], d, v => by simp [bump]
  | (e, s) :: rest, d, v => by
      by_cases h : e = d
      · simp [bump, h]
      · have ih := bump_map_fst rest d v
        by_cases hm : d ∈ rest.map Prod.fst <;>
          simp [bump, h, hm, ih, Ne.symm h]

lemma keySum_cons (e : α) (s : ℚ) (rest : List (α × ℚ)) (d : α) :
    keySum ((e, s) :: rest) d = (if e = d then s else 0) + keySum rest d := by
  by_cases h : e = d <;> simp [keySum, h]

lemma bump_keySum : ∀ (acc : List (α × ℚ)) (d : α) (v : ℚ) (x : α),
    keySum (bump acc d v) x = keySum acc x + (if d = x then v else 0)
  | [], d, v, x => by
      by_cases h : d = x <;> simp [bump, keySum, h]
  | (e, s) :: rest, d, v, x => by
      by_cases h : e = d
      · subst h
        have hb : bump ((e, s) :: rest) e v = (e, s + v) :: rest := by
          simp [bump]
        rw [hb, keySum_cons, keySum_cons]
        by_cases hx : e = x <;> simp [hx] <;> ring
      · have hb : bump ((e, s) :: rest) d v = (e, s) :: bump rest d v := by
          simp [bump, h]
        rw [hb, keySum_cons, keySum_cons, bump_keySum rest d v x]
        ring

lemma bumpFold_map_fst : ∀ (l acc : List (α × ℚ)),
    (bumpFold acc l).map Prod.fst = insFold (acc.map Prod.fst) (l.map Prod.fst)
  | [], acc => rfl
  | (d, v) :: rest, acc => by
      show (bumpFold (bump acc d v) rest).map Prod.fst = _
      rw [bumpFold_map_fst rest (bump acc d v), bump_map_fst]
      rfl

lemma bumpFold_keySum : ∀ (l acc : List (α × ℚ)) (x : α),
    keySum (bumpFold acc l) x =
      keySum acc x + ((l.filter (fun p => p.1 = x)).map Prod.snd).sum
  | [], acc, x => by simp [bumpFold]
  | (d, v) :: rest, acc, x => by
      show keySum (bumpFold (bump acc d v) rest) x = _
      rw [bumpFold_keySum rest (bump acc d v) x, bump_keySum]
      by_cases h : d = x <;> simp [h] <;> ring

lemma fusedScores_eq_bumpFold (results : List (List α)) (k : ℚ) :
    fusedScores results k = bumpFold [] (contribs results k) := by
  suffices h : ∀ (rs : List (List α)) (acc : List (α × ℚ)),
      rs.foldl
        (fun acc docs =>
          docs.enum.foldl (fun acc2 p => bump acc2 p.2 (1 / ((p.1 : ℚ) + 1 + k))) acc)
        acc = bumpFold acc (contribs rs k) by
    exact h results []
  intro rs
  induction rs with
  | nil => intro acc; rfl
  | cons docs rest ih =>
    intro acc
    show rest.foldl _ (docs.enum.foldl _ acc) = bumpFold acc (contribs (docs :: rest) k)
    have h1 : contribs (docs :: rest) k
        = docs.enum.map (fun p => (p.2, 1 / ((p.1 : ℚ) + 1 + k))) ++ contribs rest k := by
      simp [contribs]
    have h2 : bumpFold acc (docs.enum.map (fun p => (p.2, 1 / ((p.1 : ℚ) + 1 + k))))
        = docs.enum.foldl (fun acc2 p => bump acc2 p.2 (1 / ((p.1 : ℚ) + 1 + k))) acc := by
      simp [bumpFold, List.foldl_map]
    rw [h1]
    unfold bumpFold
    rw [List.foldl_append]
    rw [show (docs.enum.map (fun p => (p.2, 1 / ((p.1 : ℚ) + 1 + k)))).foldl
          (fun a p => bump a p.1 p.2) acc
        = docs.enum.foldl (fun acc2 p => bump acc2 p.2 (1 / ((p.1 : ℚ) + 1 + k))) acc
      from h2]
    exact ih _

lemma insFold_nodup : ∀ (l acc : List α), acc.Nodup → (insFold acc l).Nodup
  | [], _, h => h
  | d :: rest, acc, h => by
      show (insFold (if d ∈ acc then acc else acc ++ [d]) rest).Nodup
      by_cases hm : d ∈ acc
      · rw [if_pos hm]
        exact insFold_nodup rest acc h
      · rw [if_neg hm]
        refine insFold_nodup rest _ ?_
        simp [List.nodup_append, h, hm]

lemma map_fst_contribs (results : List (List α)) (k : ℚ) :
    (contribs results k).map Prod.fst = results.flatten := by
  simp [contribs, List.map_flatten, List.map_map, Function.comp_def]

lemma fusedScores_map_fst (results : List (List α)) (k : ℚ) :
    (fusedScores results k).map Prod.fst = encounterList results := by
  rw [fusedScores_eq_bumpFold, bumpFold_map_fst, map_fst_contribs]
  rfl

lemma encounterList_nodup (results : List (List α)) : (encounterList results).Nodup :=
  insFold_nodup results.flatten [] List.nodup_nil

lemma keySum_of_not_mem : ∀ (l : List (α × ℚ)) (d : α), d ∉ l.map Prod.fst → keySum l d = 0
  | [], _, _ => rfl
  | (e, s) :: rest, d, h => by
      rw [keySum_cons]
      have h1 : ¬e = d := by
        intro he
        exact h (by simp [he])
      have h2 : d ∉ rest.map Prod.fst := by
        intro hm
        exact h (by simp [hm])
      rw [keySum_of_not_mem rest d h2, if_neg h1]
      ring

lemma val_eq_keySum : ∀ (l : List (α × ℚ)), (l.map Prod.fst).Nodup →
    ∀ p ∈ l, p.2 = keySum l p.1
  | [], _, p, hp => absurd hp (List.not_mem_nil p)
  | (e, s) :: rest, hnd, p, hp => by
      rw [List.map_cons] at hnd
      rcases List.nodup_cons.mp hnd with ⟨hnd1, hnd2⟩
      rcases List.mem_cons.mp hp with rfl | hp2
      · show s = keySum ((e, s) :: rest) e
        rw [keySum_cons, if_pos rfl, keySum_of_not_mem rest e hnd1]
        ring
      · have hne : ¬e = p.1 := by
          intro he
          rw [he] at hnd1
          exact hnd1 (List.mem_map.mpr ⟨p, hp2, rfl⟩)
        rw [keySum_cons, if_neg hne, val_eq_keySum rest hnd2 p hp2]
        ring

lemma per_list_contrib_sum {γ : Type} (m : List γ) (key : γ → α) (val : γ → ℚ) (d : α) :
    (((m.map (fun x => (key x, val x))).filter (fun p => p.1 = d)).map Prod.snd).sum
      = (m.map (fun x => if key x = d then val x else 0)).sum := by
  induction m with
  | nil => rfl
  | cons x rest ih =>
    by_cases h : key x = d <;> simp [h, ih]

lemma contribs_keySum (results : List (List α)) (k : ℚ) (d : α) :
    (((contribs results k).filter (fun p => p.1 = d)).map Prod.snd).sum
      = rrfScore results k d := by
  induction results with
  | nil => simp [contribs, rrfScore]
  | cons docs rest ih =>
    have h1 : contribs (docs :: rest) k
        = docs.enum.map (fun p => (p.2, 1 / ((p.1 : ℚ) + 1 + k))) ++ contribs rest k := by
      simp [contribs]
    rw [h1, List.filter_append, List.map_append, List.sum_append, ih]
    have h2 := per_list_contrib_sum docs.enum (fun p => p.2)
      (fun p => 1 / ((p.1 : ℚ) + 1 + k)) d
    rw [h2]
    simp [rrfScore]

lemma fusedScores_keySum (results : List (List α)) (k : ℚ) (d : α) :
    keySum (fusedScores results k) d = rrfScore results k d := by
  rw [fusedScores_eq_bumpFold, bumpFold_keySum, contribs_keySum]
  simp [keySum]

lemma fusedScores_val (results : List (List α)) (k : ℚ) :
    ∀ p ∈ fusedScores results k, p.2 = rrfScore results k p.1 := by
  intro p hp
  rw [← fusedScores_keySum results k p.1]
  exact val_eq_keySum (fusedScores results k)
    (by rw [fusedScores_map_fst]; exact encounterList_nodup results) p hp

lemma insertDesc_perm (p : α × ℚ) : ∀ (l : List (α × ℚ)), (insertDesc p l).Perm (p :: l)
  | [] => List.Perm.refl _
  | q :: rest => by
      show (if p.2 < q.2 then q :: insertDesc p rest else p :: q :: rest).Perm _
      by_cases h : p.2 < q.2
      · rw [if_pos h]
        exact ((insertDesc_perm p rest).cons q).trans (List.Perm.swap p q rest)
      · rw [if_neg h]

lemma sortDesc_perm : ∀ (l : List (α × ℚ)), (sortDesc l).Perm l
  | [] => List.Perm.refl _
  | p :: rest =>
      (insertDesc_perm p (sortDesc rest)).trans ((sortDesc_perm rest).cons p)

lemma pairwise_indexOf_lt : ∀ (E : List α), E.Nodup →
    E.Pairwise (fun a b => E.indexOf a < E.indexOf b)
  | [], _ => List.Pairwise.nil
  | x :: xs, hnd => by
      rw [List.pairwise_cons]
      constructor
      · intro b hb
        have hbx : b ≠ x := by
          intro hbx
          subst hbx
          exact (List.pairwise_cons.mp hnd).1 b hb rfl
        rw [List.indexOf_cons_self, List.indexOf_cons_ne xs hbx.symm]
        exact Nat.succ_pos _
      · have ih := pairwise_indexOf_lt xs (List.Nodup.of_cons hnd)
        refine ih.imp_of_mem (fun {a b} ha hb hab => ?_)
        have hax : a ≠ x := by
          intro h
          subst h
          exact (List.pairwise_cons.mp hnd).1 a ha rfl
        have hbx : b ≠ x := by
          intro h
          subst h
          exact (List.pairwise_cons.mp hnd).1 b hb rfl
        rw [List.indexOf_cons_ne xs hax.symm, List.indexOf_cons_ne xs hbx.symm]
        omega

lemma mem_insertDesc {p q : α × ℚ} {l : List (α × ℚ)} (h : q ∈ insertDesc p l) :
    q = p ∨ q ∈ l := by
  have := (insertDesc_perm p l).mem_iff.mp h
  simpa using this

lemma insertDesc_pairwise (E : List α) (x : α × ℚ) :
    ∀ (l : List (α × ℚ)),
      l.Pairwise (fun p q => q.2 < p.2 ∨ (p.2 = q.2 ∧ E.indexOf p.1 < E.indexOf q.1)) →
      (∀ q ∈ l, E.indexOf x.1 < E.indexOf q.1) →
      (insertDesc x l).Pairwise
        (fun p q => q.2 < p.2 ∨ (p.2 = q.2 ∧ E.indexOf p.1 < E.indexOf q.1))
  | [], _, _ => by simp [insertDesc]
  | q :: rest, hl, hx => by
      show (if x.2 < q.2 then q :: insertDesc x rest else x :: q :: rest).Pairwise _
      rcases List.pairwise_cons.mp hl with ⟨hq, hrest⟩
      by_cases h : x.2 < q.2
      · rw [if_pos h]
        rw [List.pairwise_cons]
        constructor
        · intro y hy
          rcases mem_insertDesc hy with rfl | hy2
          · exact Or.inl h
          · exact hq y hy2
        · exact insertDesc_pairwise E x rest hrest
            (fun y hy => hx y (List.mem_cons_of_mem q hy))
      · rw [if_neg h]
        rw [List.pairwise_cons]
        constructor
        · intro y hy
          rcases List.mem_cons.mp hy with rfl | hy2
          · rcases lt_or_eq_of_le (le_of_not_lt h) with hlt | heq
            · exact Or.inl hlt
            · exact Or.inr ⟨heq.symm, hx y (List.mem_cons_self y rest)⟩
          · rcases hq y hy2 with hlt | ⟨heq, _⟩
            · exact Or.inl (lt_of_lt_of_le hlt (le_of_not_lt h))
            · rcases lt_or_eq_of_le (le_of_not_lt h) with hlt2 | heq2
              · exact Or.inl (heq ▸ hlt2)
              · exact Or.inr ⟨heq2.symm.trans heq, hx y (List.mem_cons_of_mem q hy2)⟩
        · exact hl

lemma sortDesc_pairwise (E : List α) :
    ∀ (l : List (α × ℚ)),
      l.Pairwise (fun p q => E.indexOf p.1 < E.indexOf q.1) →
      (sortDesc l).Pairwise
        (fun p q => q.2 < p.2 ∨ (p.2 = q.2 ∧ E.indexOf p.1 < E.indexOf q.1))
  | [], _ => List.Pairwise.nil
  | x :: rest, hl => by
      rcases List.pairwise_cons.mp hl with ⟨hx, hrest⟩
      show (insertDesc x (sortDesc rest)).Pairwise _
      refine insertDesc_pairwise E x (sortDesc rest) (sortDesc_pairwise E rest hrest) ?_
      intro q hq
      exact hx q ((sortDesc_perm rest).mem_iff.mp hq)

lemma pairwise_of_map_fst (R : α → α → Prop) (l : List (α × ℚ))
    (h : (l.map Prod.fst).Pairwise R) : l.Pairwise (fun p q => R p.1 q.1) := by
  induction l with
  | nil => exact List.Pairwise.nil
  | cons p rest ih =>
    rw [List.map_cons, List.pairwise_cons] at h
    exact List.pairwise_cons.mpr
      ⟨fun q hq => h.1 q.1 (List.mem_map_of_mem Prod.fst hq), ih h.2⟩

lemma fusedScores_pairwise_idx (results : List (List α)) (k : ℚ) :
    (fusedScores results k).Pairwise
      (fun p q => (encounterList results).indexOf p.1 < (encounterList results).indexOf q.1) := by
  refine pairwise_of_map_fst
    (fun a b => (encounterList results).indexOf a < (encounterList results).indexOf b)
    (fusedScores results k) ?_
  rw [fusedScores_map_fst]
  exact pairwise_indexOf_lt (encounterList results) (encounterList_nodup results)

end RRFLemmas

/-! ## Claims -/

/-- Claim C2: reciprocal-rank fusion is a deterministic function: the ranked
output pairs each distinct input document (by exact content+metadata
identity, in first-encounter order for ties) with the sum of `1 / (rank + 60)`
over its 1-based ranks in all input lists, sorted by strictly descending
accumulated score with ties in first-encounter order; and on the concrete
two-list example the scores and output order are as computed by hand. -/
theorem rrf_spec :
    (∀ results : List (List Document),
        ((rrfRank results 60).map Prod.fst).Nodup
      ∧ ((rrfRank results 60).map Prod.fst).Perm (encounterList results)
      ∧ (∀ p ∈ rrfRank results 60, p.2 = rrfScore results 60 p.1)
      ∧ (rrfRank results 60).Pairwise (rrfRel results))
  ∧ rrfScore [[docA, docB, docC], [docB, docC, docA]] 60 docA = 1 / 61 + 1 / 63
  ∧ rrfScore [[docA, docB, docC], [docB, docC, docA]] 60 docB = 1 / 62 + 1 / 61
  ∧ rrfScore [[docA, docB, docC], [docB, docC, docA]] 60 docC = 1 / 63 + 1 / 62
  ∧ reciprocal_rank_fusion [[docA, docB, docC], [docB, docC, docA]]
      = [⟨"B", [("rrf_score", .num (1 / 62 + 1 / 61))]⟩,
         ⟨"A", [("rrf_score", .num (1 / 61 + 1 / 63))]⟩,
         ⟨"C", [("rrf_score", .num (1 / 63 + 1 / 62))]⟩] := by
  refine ⟨?_, ?_, ?_, ?_, ?_⟩
  · intro results
    have hperm : (rrfRank results 60).Perm (fusedScores results 60) := sortDesc_perm _
    have hkeys : ((rrfRank results 60).map Prod.fst).Perm (encounterList results) := by
      have h := hperm.map Prod.fst
      rw [fusedScores_map_fst] at h
      exact h
    refine ⟨(hkeys.nodup_iff).mpr (encounterList_nodup results), hkeys, ?_, ?_⟩
    · intro p hp
      exact fusedScores_val results 60 p (hperm.mem_iff.mp hp)
    · exact sortDesc_pairwise (encounterList results) _ (fusedScores_pairwise_idx results 60)
  · simp +decide [rrfScore, docA, docB, docC, List.enum, List.enumFrom]
    norm_num
  · simp +decide [rrfScore, docA, docB, docC, List.enum, List.enumFrom]
    norm_num
  · simp +decide [rrfScore, docA, docB, docC, List.enum, List.enumFrom]
    norm_num
  · norm_num [reciprocal_rank_fusion, rrfRank, fusedScores, sortDesc, insertDesc, bump,
      setMeta, setKey, docA, docB, docC, List.enum, List.enumFrom]

/-- Witness for claim C2: at a concrete one-list input, the fused table is
duplicate-free and the recorded score of the member pair is its
reciprocal-rank score. -/
theorem rrf_spec_witness :
    ((rrfRank [[docA]] 60).map Prod.fst).Nodup
  ∧ (docA, (1 : ℚ) / 61).2 = rrfScore [[docA]] 60 (docA, (1 : ℚ) / 61).1 :=
  ⟨(rrf_spec.1 [[docA]]).1,
   (rrf_spec.1 [[docA]]).2.2.1 (docA, 1 / 61) (by
      norm_num [rrfRank, fusedScores, sortDesc, insertDesc, bump, docA,
        List.enum, List.enumFrom])⟩

/-- The relevance grader's verdict on a nonempty document list: compare the
filtered-out fraction against the 0.3 threshold. -/
lemma grade_documents_parallel_snd (d : Document) (ds : List Document) (results : List String) :
    (grade_documents_parallel (d :: ds) results).2 =
      if (3 / 10 : ℚ) ≤
          ((((d :: ds).length : ℚ)
              - (((((d :: ds).zip results).filter (fun p => Py.lower p.2 = "pass")).length : ℚ)))
            / (((d :: ds)).length : ℚ)) then "fail" else "pass" := by
  unfold grade_documents_parallel
  rw [if_pos (by simp)]
  simp [List.length_map, ge_iff_le]

/-- Claim C3: the relevance filter's verdict is `fail` exactly when the input
list is empty or the fraction of documents graded `fail` is at least `0.3`;
in particular an empty input always yields `fail`. -/
theorem relevance_verdict_characterization :
    (∀ (docs : List Document) (results : List String),
        results.length = docs.length →
        (∀ r ∈ results, Py.lower r = "pass" ∨ Py.lower r = "fail") →
        ((grade_documents_parallel docs results).2 = "fail" ↔
          docs = [] ∨
            (3 / 10 : ℚ) ≤ (results.countP (fun r => Py.lower r = "fail") : ℚ) / (docs.length : ℚ)))
  ∧ ∀ results : List String, (grade_documents_parallel [] results).2 = "fail" := by
  constructor
  · intro docs results hlen hval
    rcases docs with _ | ⟨d, ds⟩
    · simp [grade_documents_parallel]
    · have hrel :
          ((((d :: ds).zip results).filter (fun p => Py.lower p.2 = "pass")).length
            = results.countP (fun r => Py.lower r = "pass")) := by
        rw [← List.countP_eq_length_filter]
        exact countP_zip_snd (fun r => decide (Py.lower r = "pass")) (d :: ds) results hlen.symm
      have hfail : results.countP (fun r => Py.lower r = "fail")
          = results.countP (fun r => !(decide (Py.lower r = "pass"))) := by
        refine List.countP_congr (fun r hr => ?_)
        rcases hval r hr with h | h <;> simp [h]
      have hpart : results.countP (fun r => Py.lower r = "pass")
          + results.countP (fun r => Py.lower r = "fail") = (d :: ds).length := by
        rw [hfail, countP_add_countP_not, hlen]
      have hnum : (((d :: ds).length : ℚ))
          - (((((d :: ds).zip results).filter (fun p => Py.lower p.2 = "pass")).length : ℚ))
          = (results.countP (fun r => Py.lower r = "fail") : ℚ) := by
        rw [hrel]
        push_cast [← hpart]
        ring
      rw [grade_documents_parallel_snd, hnum]
      by_cases hc : (3 / 10 : ℚ) ≤
          (results.countP (fun r => Py.lower r = "fail") : ℚ) / (((d :: ds)).length : ℚ)
      · rw [if_pos hc]
        exact iff_of_true rfl (Or.inr hc)
      · rw [if_neg hc]
        refine iff_of_false (by simp) ?_
        rintro (h | h)
        · exact List.cons_ne_nil d ds h
        · exact hc h
  · intro results
    simp [grade_documents_parallel]

/-- Witness for claim C3 at a concrete input: three documents, one graded
`fail` (fraction `1/3 ≥ 0.3`), so the verdict is `fail`. -/
theorem relevance_verdict_characterization_witness :
    (["pass", "fail", "pass"].length = [docA, docB, docC].length) ∧
    ((grade_documents_parallel [docA, docB, docC] ["pass", "fail", "pass"]).2 = "fail" ↔
      [docA, docB, docC] = [] ∨
        (3 / 10 : ℚ) ≤
          ((["pass", "fail", "pass"].countP (fun r => Py.lower r = "fail")) : ℚ)
            / (([docA, docB, docC].length : ℚ))) :=
  ⟨by decide,
    relevance_verdict_characterization.1 [docA, docB, docC] ["pass", "fail", "pass"]
      (by decide) (by decide)⟩

/-- Claim C4: out of the grading step, a `pass` verdict goes to generation; a
failing verdict goes to the fallback agent exactly when the (lower-cased,
stripped) question starts with one of who/what/when/where, else to web
search; the scenario question routes to the fallback agent. -/
theorem decide_to_generate_policy :
    (∀ (cr : String) (oq : Option String) (q : String),
        (decide_to_generate_or_assess cr oq q = "generate" ↔ cr = "pass")
      ∧ (decide_to_generate_or_assess cr oq q = "Chitter-Chatter" ↔
          (¬cr = "pass" ∧ startsWithFaqWord (effectiveQuestion oq q) = true))
      ∧ (decide_to_generate_or_assess cr oq q = "Websearch" ↔
          (¬cr = "pass" ∧ startsWithFaqWord (effectiveQuestion oq q) = false)))
  ∧ decide_to_generate_or_assess "fail" none "Who is the TA for lab tutoring?"
      = "Chitter-Chatter" := by
  constructor
  · intro cr oq q
    unfold decide_to_generate_or_assess
    split_ifs with h1 h2 <;> simp_all
  · decide

/-- Witness for claim C4: the scenario instance extracted from the theorem. -/
theorem decide_to_generate_policy_witness :
    decide_to_generate_or_assess "fail" none "Who is the TA for lab tutoring?"
      = "Chitter-Chatter" :=
  decide_to_generate_policy.2

/-- Claim C6: the router maps every classifier label to one of the three
routes; it returns the retrieval or web-search route only on the exact labels
`Vectorstore` / `Websearch`, and every other label—including unexpected
ones—yields the fallback route. -/
theorem route_question_failsafe :
    (∀ label : String,
        (route_question label = "Websearch" ∨ route_question label = "Vectorstore" ∨
          route_question label = "Chitter-Chatter")
      ∧ (route_question label = "Websearch" ↔ label = "Websearch")
      ∧ (route_question label = "Vectorstore" ↔ label = "Vectorstore")
      ∧ (route_question label = "Chitter-Chatter" ↔
          (¬label = "Websearch" ∧ ¬label = "Vectorstore")))
  ∧ route_question "Simple-FAQ" = "Chitter-Chatter"
  ∧ route_question "totally unexpected label" = "Chitter-Chatter" := by
  refine ⟨?_, by decide, by decide⟩
  intro label
  unfold route_question
  split_ifs with h1 h2 h3 <;> simp_all

/-- Witness for claim C6: an unexpected label is routed to the fallback
agent. -/
theorem route_question_failsafe_witness :
    route_question "totally unexpected label" = "Chitter-Chatter" :=
  route_question_failsafe.2.2

/-- Claim C8: the relevance filter's output documents form a sublist of its
input: every output document is an unmodified input document, and nothing is
added. -/
theorem relevance_filter_sublist (docs : List Document) (results : List String) :
    ((grade_documents_parallel docs results).1).Sublist docs
  ∧ ∀ d ∈ (grade_documents_parallel docs results).1, d ∈ docs := by
  constructor
  · rw [grade_documents_parallel_fst]
    exact filter_zip_map_fst_sublist _ docs results
  · intro d hd
    rw [grade_documents_parallel_fst] at hd
    exact (filter_zip_map_fst_sublist _ docs results).subset hd

/-- Witness for claim C8: at a concrete input the surviving document is an
input document. -/
theorem relevance_filter_sublist_witness : docA ∈ [docA, docB] :=
  (relevance_filter_sublist [docA, docB] ["pass", "fail"]).2 docA (by decide)

/-- Claim C9: the multi-query retriever ignores failed per-paraphrase
retrieval calls (its result only depends on the surviving lists), returns at
most 5 documents, and none of the returned documents carries the `rrf_score`
provenance key in its metadata. -/
theorem document_retriever_props (outcomes : List (Option (List Document))) :
    document_retriever outcomes = document_retriever ((outcomes.filterMap id).map some)
  ∧ (document_retriever outcomes).length ≤ 5
  ∧ ∀ d ∈ document_retriever outcomes, ∀ p ∈ d.metadata, ¬p.1 = "rrf_score" := by
  refine ⟨?_, ?_, ?_⟩
  · unfold document_retriever
    rw [List.filterMap_map]
    simp
  · unfold document_retriever
    simp only [List.length_map, List.length_take]
    omega
  · intro d hd p hp
    unfold document_retriever at hd
    simp only [List.mem_map] at hd
    obtain ⟨doc, _, rfl⟩ := hd
    simp only [stripRrfScore, List.mem_filter] at hp
    simpa using hp.2

/-- Witness for claim C9 at a concrete input with a failing middle retrieval:
the kept document's metadata key survives and the provenance key does not. -/
theorem document_retriever_props_witness :
    document_retriever [some [docM], none, some [docM]]
        = document_retriever (([some [docM], none, some [docM]].filterMap id).map some)
    ∧ (document_retriever [some [docM], none, some [docM]]).length ≤ 5
    ∧ ¬("title", MVal.str "t").1 = "rrf_score" :=
  ⟨(document_retriever_props [some [docM], none, some [docM]]).1,
   (document_retriever_props [some [docM], none, some [docM]]).2.1,
   (document_retriever_props [some [docM], none, some [docM]]).2.2
      ⟨"M", [("title", MVal.str "t")]⟩ (by decide) ("title", MVal.str "t") (by decide)⟩

/-- Claim C1: for every choice stream (so for every question and every
sequence of verifier verdicts) the workflow reaches `END` within a bounded
number of steps; each tracker node strictly increments its own counter; and
no run visits `AnswerGenerator` more than 5 times. -/
theorem workflow_bounded_termination (f : Nat → Choice) (q0 : String) (n : Nat) :
    (run f (init q0) (48 + n)).node = .done
  ∧ agCount f (init q0) n ≤ 5
  ∧ (∀ (c : Config) (ch : Choice),
      (step { c with node := .hallucinationCheckerFailed } ch).hallucination_checker_attempts
        = c.hallucination_checker_attempts + 1)
  ∧ (∀ (c : Config) (ch : Choice),
      (step { c with node := .answerVerifierFailed } ch).answer_verifier_attempts
        = c.answer_verifier_attempts + 1) := by
  refine ⟨run_done_absorb f (init q0) 48 (run_init_done f q0) n, ?_,
    fun c ch => rfl, fun c ch => rfl⟩
  have h := agCount_add_phi_le f (init q0) (inv_init q0) n
  have h5 : phi (init q0) = 5 := rfl
  omega

/-- Claim C5 counterexample: on a run where the grounding verifier always
fails, after the first two generation attempts (configurations 3 and 5) have
both failed grounding, the workflow does NOT transition to the fallback
agent: configuration 6 is the retry tracker, configuration 7 is a third
generation attempt, and only configuration 8 reaches the fallback agent; the
run performs 3 generation attempts in total. -/
theorem fallback_after_second_grounding_failure_counterexample :
    (run groundingAlwaysFails (init "q") 3).node = .answerGenerator
  ∧ (run groundingAlwaysFails (init "q") 3).hallucination_checker_attempts = 0
  ∧ (run groundingAlwaysFails (init "q") 5).node = .answerGenerator
  ∧ (run groundingAlwaysFails (init "q") 5).hallucination_checker_attempts = 1
  ∧ ¬(run groundingAlwaysFails (init "q") 6).node = .chitterChatter
  ∧ (run groundingAlwaysFails (init "q") 6).node = .hallucinationCheckerFailed
  ∧ (run groundingAlwaysFails (init "q") 7).node = .answerGenerator
  ∧ (run groundingAlwaysFails (init "q") 8).node = .chitterChatter
  ∧ agCount groundingAlwaysFails (init "q") 9 = 3 := by
  decide

/-- Claim C5 amended: starting a generation with `grounding_attempts = 0`,
after the grounding verifier fails on three consecutive generation attempts
the Orchestrator transitions to the fallback agent immediately after the
third failure, without performing a fourth generation attempt. -/
theorem fallback_after_third_grounding_failure (f : Nat → Choice) (c : Config)
    (hnode : c.node = .answerGenerator)
    (hcnt : c.hallucination_checker_attempts = 0)
    (h0 : (f 0).groundingPass = false)
    (h2 : (f 2).groundingPass = false)
    (h4 : (f 4).groundingPass = false) :
    (run f c 5).node = .chitterChatter
  ∧ (run f c 6).node = .done
  ∧ agCount f c 6 = 3 := by
  have e0 : run f c 0 = c := rfl
  have e1 : run f c 1 = { c with node := .hallucinationCheckerFailed } := by
    show step c (f 0) = _
    rw [step_answerGenerator c (f 0) hnode, h0, hcnt]
    simp
  have e2 : run f c 2 = { c with
      node := .answerGenerator
      hallucination_checker_attempts := c.hallucination_checker_attempts + 1 } := by
    show step (run f c 1) (f 1) = _
    rw [e1]
    rfl
  have e3 : run f c 3 = { c with
      node := .hallucinationCheckerFailed
      hallucination_checker_attempts := c.hallucination_checker_attempts + 1 } := by
    show step (run f c 2) (f 2) = _
    rw [e2, step_answerGenerator _ (f 2) rfl, h2, hcnt]
    simp
  have e4 : run f c 4 = { c with
      node := .answerGenerator
      hallucination_checker_attempts := c.hallucination_checker_attempts + 1 + 1 } := by
    show step (run f c 3) (f 3) = _
    rw [e3]
    rfl
  have e5 : run f c 5 = { c with
      node := .chitterChatter
      hallucination_checker_attempts := c.hallucination_checker_attempts + 1 + 1 } := by
    show step (run f c 4) (f 4) = _
    rw [e4, step_answerGenerator _ (f 4) rfl, h4, hcnt]
    simp
  have e6 : run f c 6 = { c with
      node := .done
      hallucination_checker_attempts := c.hallucination_checker_attempts + 1 + 1 } := by
    show step (run f c 5) (f 5) = _
    rw [e5]
    rfl
  refine ⟨by rw [e5], by rw [e6], ?_⟩
  show agCount f c 5 + _ = 3
  show agCount f c 4 + _ + _ = 3
  show agCount f c 3 + _ + _ + _ = 3
  show agCount f c 2 + _ + _ + _ + _ = 3
  show agCount f c 1 + _ + _ + _ + _ + _ = 3
  show agCount f c 0 + _ + _ + _ + _ + _ + _ = 3
  rw [agCount, e0, e1, e2, e3, e4, e5, hnode]
  simp

/-- Witness for the amended claim C5: the concrete always-failing grounding
oracle starting at a fresh generation configuration. -/
theorem fallback_after_third_grounding_failure_witness :
    (run groundingAlwaysFails ⟨.answerGenerator, 0, 0, "q", none⟩ 5).node = .chitterChatter
  ∧ (run groundingAlwaysFails ⟨.answerGenerator, 0, 0, "q", none⟩ 6).node = .done
  ∧ agCount groundingAlwaysFails ⟨.answerGenerator, 0, 0, "q", none⟩ 6 = 3 :=
  fallback_after_third_grounding_failure groundingAlwaysFails
    ⟨.answerGenerator, 0, 0, "q", none⟩ rfl rfl rfl rfl rfl

/-- Claim C7: along every run, `original_question` is never anything but
absent or the turn-start question; a step at the query rewriter sets it to
the turn-start question and replaces `question` with the rewritten text,
while a step at any other node changes neither field; and the rewriter's
state update is exactly the one described. -/
theorem original_question_preserved (f : Nat → Choice) (q0 : String) (n : Nat) :
    ((run f (init q0) n).original_question = none ∨
      (run f (init q0) n).original_question = some q0)
  ∧ ((run f (init q0) (n + 1)).original_question =
      if (run f (init q0) n).node = .queryRewriter then some q0
      else (run f (init q0) n).original_question)
  ∧ ((run f (init q0) (n + 1)).question =
      if (run f (init q0) n).node = .queryRewriter then (f n).rewritten
      else (run f (init q0) n).question)
  ∧ (∀ (c : Config) (ch : Choice),
      step { c with node := .queryRewriter } ch =
        { c with
          node := .documentRetriever
          question := ch.rewritten
          original_question := some (c.original_question.getD c.question) }) := by
  have hstep : run f (init q0) (n + 1) = step (run f (init q0) n) (f n) := rfl
  refine ⟨?_, ?_, ?_, fun c ch => rfl⟩
  · rcases oqinv_run f q0 n with ⟨h, _⟩ | h
    · exact Or.inl h
    · exact Or.inr h
  · by_cases hqr : (run f (init q0) n).node = .queryRewriter
    · rw [if_pos hqr, hstep, step_queryRewriter _ _ hqr]
      rcases oqinv_run f q0 n with ⟨ha, hb⟩ | ha
      · simp [ha, hb]
      · simp [ha]
    · rw [if_neg hqr, hstep]
      exact (step_preserves_questions _ _ hqr).1
  · by_cases hqr : (run f (init q0) n).node = .queryRewriter
    · rw [if_pos hqr, hstep, step_queryRewriter _ _ hqr]
    · rw [if_neg hqr, hstep]
      exact (step_preserves_questions _ _ hqr).2

/-- Claim C10: the rewrite prompt is built from `original_question` whenever
it is set, and along every run every rewrite prompt uses the turn-start
question, never an earlier rewrite. -/
theorem rewriter_prompt_from_original (f : Nat → Choice) (q0 : String) (n : Nat) :
    (∀ (nd : Node) (hc ac : Nat) (q v : String),
        rewriterPromptQuestion ⟨nd, hc, ac, q, some v⟩ = v)
  ∧ ((run f (init q0) n).node = .queryRewriter →
      rewriterPromptQuestion (run f (init q0) n) = q0) := by
  refine ⟨fun nd hc ac q v => rfl, fun hqr => ?_⟩
  rcases oqinv_run f q0 n with ⟨ha, hb⟩ | ha
  · simp [rewriterPromptQuestion, ha, hb]
  · simp [rewriterPromptQuestion, ha]

/-- Witness for claim C10: a concrete run whose usefulness check fails
reaches the query rewriter at step 5, and the prompt question is the
turn-start question. -/
theorem rewriter_prompt_from_original_witness :
    rewriterPromptQuestion (run usefulnessAlwaysFails (init "turn start q") 5)
      = "turn start q" :=
  (rewriter_prompt_from_original usefulnessAlwaysFails "turn start q" 5).2 (by decide)

end Clare
